import Mathlib

/-!
Verification development for the normalization and streaming conversation
engine of the vibe-kanban agent-execution layer.

The definitions below are shallow embeddings of the Rust sources:
  crates/executors/src/executors/claude.rs
  crates/executors/src/executors/codex/normalize_logs.rs
  crates/executors/src/executors/codex/client.rs
  crates/executors/src/executors/copilot.rs

Conventions of the embedding:
* serde_json::Value is the inductive `Json`; external JSON parsing
  (serde_json::from_str) is abstracted as a parameter of type
  `String → Option Json` wherever the source calls it on data the
  claims quantify over.
* Rust HashMap values are association lists with replace-on-insert
  semantics (`lookupA`, `insertA`, `eraseA`); reachable states keep keys
  unique, matching the library map.
* The shared EntryIndexProvider (a monotonic usize allocator, per the
  spec of crate `utils::logs`) is a natural-number counter threaded
  through the state.
* NormalizedEntry keeps the fields the claims speak about (`entry_type`,
  `content`); the `timestamp` field is always None in the normalizers
  modelled here and `metadata` is a debug copy of the raw payload, so
  both are omitted.
-/

namespace VibeKanban

/-! ## Core data model -/

/-- serde_json::Value. Number payloads are irrelevant to every claim and are
carried as integers. -/
inductive Json where
  | null
  | bool (b : Bool)
  | num (n : Int)
  | str (s : String)
  | arr (xs : List Json)
  | obj (fields : List (String × Json))
deriving Repr, BEq

/-- Tool lifecycle status (crate logs::ToolStatus). -/
inductive ToolStatus where
  | created
  | success
  | failed
deriving Repr, DecidableEq

/-- Exit status of a command run (crate logs::CommandExitStatus). -/
inductive CommandExitStatus where
  | exitCode (code : Int)
  | success (success : Bool)
deriving Repr, DecidableEq

/-- Result attached to a CommandRun action (crate logs::CommandRunResult). -/
structure CommandRunResult where
  exit_status : Option CommandExitStatus
  output : Option String
deriving Repr, DecidableEq

/-- The subset of logs::ActionType the claims exercise. The remaining
variants (FileRead, FileEdit, Search, ...) are never produced by the
functions embedded below. -/
inductive ActionType where
  | commandRun (command : String) (result : Option CommandRunResult)
deriving Repr, DecidableEq

/-- Entry kinds (crate logs::NormalizedEntryType). -/
inductive NormalizedEntryType where
  | systemMessage
  | userMessage
  | userFeedback (denied_tool : String)
  | assistantMessage
  | thinking
  | errorMessage
  | toolUse (tool_name : String) (action_type : ActionType) (status : ToolStatus)
deriving Repr, DecidableEq

/-- A canonical conversation entry (crate logs::NormalizedEntry, without the
always-None timestamp and the debug-only metadata). -/
structure NormalizedEntry where
  entry_type : NormalizedEntryType
  content : String
deriving Repr, DecidableEq

/-- A conversation patch (crate logs::utils::ConversationPatch): one of the
three operations on the entries array. -/
inductive Patch where
  | add (index : Nat) (entry : NormalizedEntry)
  | replace (index : Nat) (entry : NormalizedEntry)
  | remove (index : Nat)
deriving Repr, DecidableEq

/-- What a normalizer emits into the message store: a conversation patch
(push_patch) or a session-id broadcast (push_session_id). -/
inductive Output where
  | patch (p : Patch)
  | sessionId (s : String)
deriving Repr, DecidableEq

/-- The session ids among a list of outputs, in emission order. -/
def sessionPushes (outs : List Output) : List String :=
  outs.filterMap fun o =>
    match o with
    | .sessionId s => some s
    | .patch _ => none

/-! ## Association-list maps (HashMap embedding) -/

def lookupA {κ α : Type} [DecidableEq κ] (k : κ) : List (κ × α) → Option α
  | [] => none
  | (k2, v) :: rest => if k2 = k then some v else lookupA k rest

def insertA {κ α : Type} [DecidableEq κ] (k : κ) (v : α) : List (κ × α) → List (κ × α)
  | [] => [(k, v)]
  | (k2, w) :: rest => if k2 = k then (k, v) :: rest else (k2, w) :: insertA k v rest

def eraseA {κ α : Type} [DecidableEq κ] (k : κ) (l : List (κ × α)) : List (κ × α) :=
  l.filter fun p => decide (p.1 ≠ k)

theorem lookupA_insertA_self {κ α : Type} [DecidableEq κ] (k : κ) (v : α)
    (l : List (κ × α)) : lookupA k (insertA k v l) = some v := by
  induction l with
  | nil => simp [insertA, lookupA]
  | cons hd tl ih =>
    by_cases h : hd.1 = k
    · simp [insertA, h, lookupA]
    · simp [insertA, h, lookupA, ih]

theorem lookupA_eraseA_self {κ α : Type} [DecidableEq κ] (k : κ)
    (l : List (κ × α)) : lookupA k (eraseA k l) = none := by
  induction l with
  | nil => simp [eraseA, lookupA]
  | cons hd tl ih =>
    by_cases h : hd.1 = k
    · simpa [eraseA, h] using ih
    · simpa [eraseA, h, lookupA] using ih

/-! ## Structural string helpers

Rust str::trim and str::starts_with are modelled by structural functions
over the character list of the string, so that concrete runs reduce inside
the kernel (the library String.trim and String.startsWith are defined by
well-founded recursion over byte positions and do not). -/

/-- Rust str::trim: remove leading and trailing whitespace. -/
def trimStr (s : String) : String :=
  String.mk (((s.data.dropWhile Char.isWhitespace).reverse.dropWhile
    Char.isWhitespace).reverse)

/-- Rust str::starts_with for string patterns. -/
def startsWithStr (s pre : String) : Bool :=
  pre.data.isPrefixOf s.data

/-! ## Claude tool-result value normalization (claude.rs) -/

/-- Result value classification (crate logs::ToolResultValueType). -/
inductive ToolResultValueType where
  | markdown
  | json
deriving Repr, DecidableEq

/-- serde decode of one ClaudeToolResultTextItem: an object whose `text`
field is a string (unknown fields are ignored by serde). -/
def decodeTextItem (v : Json) : Option String :=
  match v with
  | .obj fields =>
    match lookupA "text" fields with
    | some (.str s) => some s
    | _ => none
  | _ => none

/-- serde decode of Vec of ClaudeToolResultTextItem: every array element
must decode. -/
def decodeTextItems (v : Json) : Option (List String) :=
  match v with
  | .arr xs => xs.mapM decodeTextItem
  | _ => none

/-- ClaudeLogProcessor::normalize_claude_tool_result_value.
`parseJson` stands for serde_json::from_str on a candidate string. -/
def normalize_claude_tool_result_value (parseJson : String → Option Json)
    (content : Json) : ToolResultValueType × Json :=
  match content with
  | .str s =>
    match parseJson s with
    | some parsed => (.json, parsed)
    | none => (.markdown, .str s)
  | _ =>
    match decodeTextItems content with
    | some items =>
      if items.isEmpty then (.json, content)
      else
        match parseJson (String.intercalate "\n\n" items) with
        | some parsed => (.json, parsed)
        | none => (.markdown, .str (String.intercalate "\n\n" items))
    | none => (.json, content)

/-- The string classification rule exactly as the spec words it: a string
that parses as JSON is Json with the parsed value, otherwise Markdown with
the string. -/
def specStringRule (parseJson : String → Option Json) (s : String) :
    ToolResultValueType × Json :=
  match parseJson s with
  | some v => (.json, v)
  | none => (.markdown, .str s)

/-- The full tool-result rule as the spec words it: strings go through the
string rule; a non-empty array of objects with a text field is joined on
blank lines and the joined string goes through the same string rule;
everything else is Json with the original value. -/
def specToolResultRule (parseJson : String → Option Json) (content : Json) :
    ToolResultValueType × Json :=
  match content with
  | .str s => specStringRule parseJson s
  | _ =>
    match decodeTextItems content with
    | some items =>
      if items.isEmpty then (.json, content)
      else specStringRule parseJson (String.intercalate "\n\n" items)
    | none => (.json, content)

/-! ## Claude approval-hook settings (claude.rs settings_json) -/

/-- The approval timeout constant of crate workspace_utils::approvals.
Modelled from the spec: the default approval timeout is 300 seconds. The
settings generator below is additionally stated for an arbitrary timeout
value, so nothing depends on the concrete 300. -/
def APPROVAL_TIMEOUT_SECONDS : Nat := 300

/-- The user-denial feedback marker (claude.rs USER_FEEDBACK_MARKER). -/
def USER_FEEDBACK_MARKER : String := "User feedback: "

/-- The ASCII apostrophe used by settings_json to quote the marker. -/
def squote : String := String.singleton (Char.ofNat 39)

/-- The local `backend_timeout` of settings_json: the approval timeout plus
a 5 second buffer. Stated for an arbitrary approval timeout `t`. -/
def backend_timeout (t : Nat) : Nat := t + 5

/-- The PreToolUse matcher chosen by settings_json. -/
def settings_matcher (plan : Bool) : String :=
  if plan then "^ExitPlanMode$"
  else "^(?!(Glob|Grep|NotebookRead|Read|Task|TodoWrite)$).*"

/-- The hook command line assembled by settings_json. -/
def settings_hook_command (backend_port t : Nat) : String :=
  "$CLAUDE_PROJECT_DIR/.claude/hooks/confirm.py --timeout-seconds "
    ++ toString (backend_timeout t)
    ++ " --poll-interval 5 --backend-port " ++ toString backend_port
    ++ " --feedback-marker " ++ squote ++ USER_FEEDBACK_MARKER ++ squote

/-- claude.rs settings_json: the settings document injected for the
pre-tool approval hook, for backend port `backend_port` and approval
timeout `t` (the source reads `t` from APPROVAL_TIMEOUT_SECONDS). -/
def settings_json (plan : Bool) (backend_port t : Nat) : Json :=
  .obj [("hooks", .obj [("PreToolUse", .arr [
    .obj [
      ("matcher", .str (settings_matcher plan)),
      ("hooks", .arr [
        .obj [
          ("type", .str "command"),
          ("command", .str (settings_hook_command backend_port t)),
          ("timeout", .num (backend_timeout t + 10))
        ]
      ])
    ]
  ])])]

/-- Read the `timeout` field of the single hook entry back out of a
settings document. -/
def hookEntryTimeout (j : Json) : Option Json :=
  match j with
  | .obj [("hooks", .obj [("PreToolUse", .arr [
      .obj [_, ("hooks", .arr [.obj [_, _, ("timeout", v)]])]])])] => some v
  | _ => none

/-! ## Codex approval client (codex/client.rs) -/

/-- Outcome of an approval request (crate workspace_utils::approvals).
Modelled from the spec: the Approval Service returns one of
Approved, Denied with an optional reason, TimedOut or Pending. -/
inductive ApprovalStatus where
  | pending
  | approved
  | denied (reason : Option String)
  | timedOut
deriving Repr, DecidableEq

/-- Wire review decision (codex_protocol::protocol::ReviewDecision). -/
inductive ReviewDecision where
  | approved
  | approvedForSession
  | denied
  | abort
deriving Repr, DecidableEq

/-- AppServerClient::review_decision: map an approval status to the wire
decision and the optional feedback message to queue. -/
def review_decision (auto_approve : Bool) (status : ApprovalStatus) :
    ReviewDecision × Option String :=
  if auto_approve then (.approvedForSession, none)
  else
    match status with
    | .approved => (.approved, none)
    | .denied reason =>
      let feedback := reason.bind fun s =>
        if (trimStr s).isEmpty then none else some (trimStr s)
      match feedback with
      | some f => (.abort, some f)
      | none => (.denied, none)
    | .timedOut => (.denied, none)
    | .pending => (.denied, none)

/-- The decision mapping exactly as the claim words it: ApprovedForSession
under auto-approve; otherwise Approved to Approved, Denied with a provided
reason r to Abort with r as feedback, Denied without a reason to Denied,
TimedOut to Denied, Pending to Denied. -/
def claimedReviewDecision (auto_approve : Bool) (status : ApprovalStatus) :
    ReviewDecision × Option String :=
  if auto_approve then (.approvedForSession, none)
  else
    match status with
    | .approved => (.approved, none)
    | .denied (some r) => (.abort, some r)
    | .denied none => (.denied, none)
    | .timedOut => (.denied, none)
    | .pending => (.denied, none)

/-- The mapping the code actually implements: like the claim, except that a
reason is surfaced (trimmed) only when it is nonempty after trimming, and a
whitespace-only reason degrades to a plain Denied. -/
def amendedReviewDecision (auto_approve : Bool) (status : ApprovalStatus) :
    ReviewDecision × Option String :=
  if auto_approve then (.approvedForSession, none)
  else
    match status with
    | .approved => (.approved, none)
    | .denied (some r) =>
      if (trimStr r).isEmpty then (.denied, none) else (.abort, some (trimStr r))
    | .denied none => (.denied, none)
    | .timedOut => (.denied, none)
    | .pending => (.denied, none)

/-- The feedback-queue slice of AppServerClient state: the registered
conversation id and the pending-feedback FIFO. -/
structure FeedbackState where
  conversation_id : Option String
  pending_feedback : List String
deriving Repr, DecidableEq

/-- Observable effect of one flush_pending_feedback call. -/
inductive FlushEffect where
  | noOp
  | droppedNoConversation (count : Nat)
  | sent (conversation_id : String) (messages : List String)
deriving Repr, DecidableEq

/-- AppServerClient::flush_pending_feedback: drain the queue; if it was
empty do nothing; if no conversation id is registered, warn and drop the
drained messages; otherwise send each message whose trim is nonempty as a
sendUserMessage with the literal marker in front of the trimmed text. -/
def flush_pending_feedback (st : FeedbackState) : FeedbackState × FlushEffect :=
  let messages := st.pending_feedback
  let st2 : FeedbackState := { st with pending_feedback := [] }
  if messages.isEmpty then (st2, .noOp)
  else
    match st2.conversation_id with
    | none => (st2, .droppedNoConversation messages.length)
    | some cid =>
      (st2, .sent cid (messages.filterMap fun m =>
        if (trimStr m).isEmpty then none
        else some (USER_FEEDBACK_MARKER ++ trimStr m)))

/-- AppServerClient::enqueue_feedback: push unless the message trims to
empty. -/
def enqueue_feedback (st : FeedbackState) (message : String) : FeedbackState :=
  if (trimStr message).isEmpty then st
  else { st with pending_feedback := st.pending_feedback ++ [message] }

/-! ## Codex approval records (normalize_logs.rs Approval, client.rs) -/

/-- The ApprovalResponse record the client writes into the log stream
(normalize_logs.rs enum Approval, single variant ApprovalResponse). -/
structure Approval where
  call_id : String
  tool_name : String
  approval_status : ApprovalStatus
deriving Repr, DecidableEq

/-- Approval::display_tool_name. -/
def Approval.display_tool_name (a : Approval) : String :=
  if a.tool_name = "codex.exec_command" then "Exec Command"
  else if a.tool_name = "codex.apply_patch" then "Edit"
  else a.tool_name

/-- Approval::to_normalized_entry_opt. -/
def Approval.to_normalized_entry_opt (a : Approval) : Option NormalizedEntry :=
  let tool_name := a.display_tool_name
  match a.approval_status with
  | .pending => none
  | .approved => none
  | .denied reason =>
    some { entry_type := .userFeedback tool_name,
           content := trimStr (reason.getD "User denied this tool use request") }
  | .timedOut =>
    some { entry_type := .errorMessage,
           content := "Approval timed out for tool " ++ tool_name }

/-- Which server request arrived (client.rs handle_server_request match). -/
inductive ApprovalKind where
  | execCommand
  | applyPatch
deriving Repr, DecidableEq

/-- The wire tool name recorded for each request kind. -/
def approval_wire_tool_name : ApprovalKind → String
  | .execCommand => "codex.exec_command"
  | .applyPatch => "codex.apply_patch"

/-- Everything observable from one handle_server_request call: the Approval
records written to the log stream, the wire decision sent back, and the
feedback message queued (if any). -/
structure ServerRequestOutcome where
  log_records : List Approval
  decision : ReviewDecision
  queued_feedback : Option String
deriving Repr, DecidableEq

/-- AppServerClient::handle_server_request, for a request of kind `kind`
with the given call id. `service_result` is the outcome of the external
approval service (request_tool_approval); an error collapses to Denied with
the reason "approval service error", and auto-approve short-circuits the
service to Approved. The feedback returned by review_decision is enqueued;
enqueue_feedback skips messages whose trim is empty. -/
def handle_server_request (auto_approve : Bool) (kind : ApprovalKind)
    (call_id : String) (service_result : Except String ApprovalStatus) :
    ServerRequestOutcome :=
  let status :=
    if auto_approve then ApprovalStatus.approved
    else
      match service_result with
      | .ok s => s
      | .error _ => ApprovalStatus.denied (some "approval service error")
  let record : Approval :=
    { call_id := call_id, tool_name := approval_wire_tool_name kind,
      approval_status := status }
  let decisionFeedback := review_decision auto_approve status
  let queued := decisionFeedback.2.bind fun m =>
    if (trimStr m).isEmpty then none else some m
  { log_records := [record], decision := decisionFeedback.1,
    queued_feedback := queued }

/-! ## Codex normalizer state (normalize_logs.rs) -/

/-- Per-command state (normalize_logs.rs CommandState). -/
structure CommandState where
  index : Option Nat
  command : String
  stdout : String
  stderr : String
  formatted_output : Option String
  status : ToolStatus
  exit_code : Option Int
  awaiting_approval : Bool
  call_id : String
deriving Repr, DecidableEq

/-- CommandState::default (Default derive; ToolStatus defaults to Created). -/
def CommandState.base : CommandState :=
  { index := none, command := "", stdout := "", stderr := "",
    formatted_output := none, status := .created, exit_code := none,
    awaiting_approval := false, call_id := "" }

/-- normalize_logs.rs build_command_output. -/
def build_command_output (stdout stderr : Option String) : Option String :=
  let sections :=
    (match stdout with
     | some out =>
       if (trimStr out).isEmpty then [] else ["stdout:\n" ++ trimStr out]
     | none => [])
    ++
    (match stderr with
     | some err =>
       if (trimStr err).isEmpty then [] else ["stderr:\n" ++ trimStr err]
     | none => [])
  if sections.isEmpty then none else some (String.intercalate "\n\n" sections)

/-- CommandState::to_normalized_entry. -/
def CommandState.to_normalized_entry (cs : CommandState) : NormalizedEntry :=
  { entry_type := .toolUse "bash"
      (.commandRun cs.command
        (some { exit_status := cs.exit_code.map fun code => .exitCode code,
                output :=
                  match cs.formatted_output with
                  | some fo => some fo
                  | none => build_command_output (some cs.stdout) (some cs.stderr) }))
      cs.status,
    content := "`" ++ cs.command ++ "`" }

/-- Streaming assistant/thinking text (normalize_logs.rs StreamingText). -/
structure StreamingText where
  index : Nat
  content : String
deriving Repr, DecidableEq

/-- The normalizer state (normalize_logs.rs LogState), with the shared
EntryIndexProvider carried as `nextIndex`. The mcp_tools, patches and
web_searches maps are not touched by the claims below and are omitted. -/
structure LogState where
  nextIndex : Nat
  assistant : Option StreamingText
  thinking : Option StreamingText
  commands : List (String × CommandState)
deriving Repr, DecidableEq

def initialLogState (startIndex : Nat) : LogState :=
  { nextIndex := startIndex, assistant := none, thinking := none, commands := [] }

/-- Which pipe an ExecCommandOutputDelta chunk belongs to. -/
inductive ExecOutputStream where
  | stdout
  | stderr
deriving Repr, DecidableEq

/-- The codex/event payloads the embedded claims exercise
(codex_protocol EventMsg); `unhandled` stands for every variant the
normalizer matches with an empty arm or that no claim concerns. -/
inductive EventMsg where
  | sessionConfigured (session_id : String) (model : String)
      (reasoning_effort : Option String)
  | execApprovalRequest (call_id : String) (command : List String)
      (reason : Option String)
  | execCommandBegin (call_id : String) (command : List String)
  | execCommandOutputDelta (call_id : String) (stream : ExecOutputStream)
      (chunk : String)
  | execCommandEnd (call_id : String) (exit_code : Int)
      (formatted_output : String)
  | unhandled
deriving Repr, DecidableEq

/-- Server notifications (codex_app_server_protocol ServerNotification):
only the SessionConfigured variant is acted on; everything else just
consumes the line. -/
inductive ServerNotificationMsg where
  | sessionConfigured (session_id : String) (model : String)
      (reasoning_effort : Option String)
  | other
deriving Repr, DecidableEq

/-- The session-id/model payload of a decoded newConversation JSON-RPC
response: SessionHandler::extract_session_id_from_rollout_path applied to
the rollout path (a Result in the source). -/
structure NewConversationInfo where
  rollout_session : Except String String
  model : String
  reasoning_effort : Option String
deriving Repr

/-- One stdout line of the codex normalizer, already classified by the
serde parse chain of normalize_logs (the chain tries Error, Approval,
JSONRPCResponse, ServerNotification, the truncated-line regex fallback,
then JSONRPCNotification, in that order; constructors are listed in that
order and a line is tagged with the first parse that succeeds). -/
inductive CodexLine where
  | errorLine (error : String)
  | approvalLine (a : Approval)
  | rpcResponse (newConversation : Option NewConversationInfo)
  | serverNotification (n : ServerNotificationMsg)
  | truncatedSessionConfigured (session_id : String)
  | notification (method : String) (params : Option EventMsg)
  | unparsed
deriving Repr

/-- add_normalized_entry: allocate the next index and push an Add patch. -/
def addEntry (st : LogState) (e : NormalizedEntry) : LogState × Nat × List Output :=
  ({ st with nextIndex := st.nextIndex + 1 }, st.nextIndex,
   [.patch (.add st.nextIndex e)])

/-- handle_model_params: emit the model / reasoning-effort system line. -/
def handle_model_params (st : LogState) (model : String)
    (reasoning_effort : Option String) : LogState × List Output :=
  let params := ["model: " ++ model] ++
    (match reasoning_effort with
     | some effort => ["reasoning effort: " ++ effort]
     | none => [])
  let (st2, _, outs) := addEntry st
    { entry_type := .systemMessage, content := String.intercalate "  " params }
  (st2, outs)

/-- The codex/event dispatch of normalize_logs (the big match on EventMsg),
restricted to the variants above. -/
def processEvent (st : LogState) : EventMsg → LogState × List Output
  | .sessionConfigured session_id model reasoning_effort =>
    let (st2, outs) := handle_model_params st model reasoning_effort
    (st2, .sessionId session_id :: outs)
  | .execApprovalRequest call_id command reason =>
    let st2 := { st with assistant := none, thinking := none }
    let command_text :=
      if command.isEmpty then
        match reason with
        | some r => if r.isEmpty then "command execution" else r
        | none => "command execution"
      else String.intercalate " " command
    let cs := (lookupA call_id st2.commands).getD CommandState.base
    let cs := if cs.command.isEmpty then { cs with command := command_text } else cs
    let cs := { cs with awaiting_approval := true }
    match cs.index with
    | some index =>
      ({ st2 with commands := insertA call_id cs st2.commands },
       [.patch (.replace index cs.to_normalized_entry)])
    | none =>
      let cs := { cs with index := some st2.nextIndex }
      ({ st2 with nextIndex := st2.nextIndex + 1,
                  commands := insertA call_id cs st2.commands },
       [.patch (.add st2.nextIndex cs.to_normalized_entry)])
  | .execCommandBegin call_id command =>
    let st2 := { st with assistant := none, thinking := none }
    let command_text := String.intercalate " " command
    if command_text.isEmpty then (st2, [])
    else
      let cs : CommandState :=
        { index := some st2.nextIndex, command := command_text, stdout := "",
          stderr := "", formatted_output := none, status := .created,
          exit_code := none, awaiting_approval := false, call_id := call_id }
      ({ st2 with nextIndex := st2.nextIndex + 1,
                  commands := insertA call_id cs st2.commands },
       [.patch (.add st2.nextIndex cs.to_normalized_entry)])
  | .execCommandOutputDelta call_id stream chunk =>
    match lookupA call_id st.commands with
    | none => (st, [])
    | some cs =>
      if chunk.isEmpty then (st, [])
      else
        let cs :=
          match stream with
          | .stdout => { cs with stdout := cs.stdout ++ chunk }
          | .stderr => { cs with stderr := cs.stderr ++ chunk }
        let st2 := { st with commands := insertA call_id cs st.commands }
        match cs.index with
        | none => (st2, [])
        | some index => (st2, [.patch (.replace index cs.to_normalized_entry)])
  | .execCommandEnd call_id exit_code formatted_output =>
    match lookupA call_id st.commands with
    | none => (st, [])
    | some cs =>
      let st2 := { st with commands := eraseA call_id st.commands }
      let cs := { cs with formatted_output := some formatted_output,
                          exit_code := some exit_code,
                          awaiting_approval := false,
                          status := if exit_code = 0 then .success else .failed }
      match cs.index with
      | none => (st2, [])
      | some index => (st2, [.patch (.replace index cs.to_normalized_entry)])
  | .unhandled => (st, [])

/-- One iteration of the normalize_logs line loop. -/
def processCodexLine (st : LogState) : CodexLine → LogState × List Output
  | .errorLine error =>
    let (st2, _, outs) := addEntry st
      { entry_type := .errorMessage, content := error }
    (st2, outs)
  | .approvalLine a =>
    match a.to_normalized_entry_opt with
    | some e =>
      let (st2, _, outs) := addEntry st e
      (st2, outs)
    | none => (st, [])
  | .rpcResponse none => (st, [])
  | .rpcResponse (some info) =>
    let sessionOuts :=
      match info.rollout_session with
      | .ok session_id => [Output.sessionId session_id]
      | .error _ => []
    let (st2, outs) := handle_model_params st info.model info.reasoning_effort
    (st2, sessionOuts ++ outs)
  | .serverNotification (.sessionConfigured session_id model reasoning_effort) =>
    let (st2, outs) := handle_model_params st model reasoning_effort
    (st2, .sessionId session_id :: outs)
  | .serverNotification .other => (st, [])
  | .truncatedSessionConfigured session_id => (st, [.sessionId session_id])
  | .notification method params =>
    if startsWithStr method "codex/event" then
      match params with
      | some event => processEvent st event
      | none => (st, [])
    else (st, [])
  | .unparsed => (st, [])

/-- The whole normalize_logs run over a list of classified lines. -/
def processCodexLines (st : LogState) : List CodexLine → LogState × List Output
  | [] => (st, [])
  | line :: rest =>
    let (st2, outs) := processCodexLine st line
    let (st3, outs2) := processCodexLines st2 rest
    (st3, outs ++ outs2)

/-! ## Theorems: C6, C7, C5, C2 -/

/-- C6: the Claude tool-result value normalization satisfies, for every
JSON content value, the spec rule: a string that parses as JSON is Json
with the parsed value; a string that does not parse is Markdown with the
string; a non-empty array of objects with a text field is joined on blank
lines and the joined string is classified by the same string rule;
anything else is Json with the original value. -/
theorem c6_tool_result_rule (parseJson : String → Option Json) (content : Json) :
    normalize_claude_tool_result_value parseJson content =
      specToolResultRule parseJson content := by
  cases content with
  | str s =>
    unfold normalize_claude_tool_result_value specToolResultRule specStringRule
    cases parseJson s <;> rfl
  | null => rfl
  | bool b => rfl
  | num n => rfl
  | arr xs =>
    unfold normalize_claude_tool_result_value specToolResultRule specStringRule
    cases h : decodeTextItems (.arr xs) with
    | none => rfl
    | some items => by_cases he : items.isEmpty <;> simp [he]
  | obj fields => rfl

/-- C7 counterexample: at the default 300-second approval timeout, the hook
entry's own process timeout in the generated settings is not
APPROVAL_TIMEOUT_SECONDS + 10 (it is 315, not 310). -/
theorem c7_counterexample :
    ¬ hookEntryTimeout (settings_json true 8887 APPROVAL_TIMEOUT_SECONDS) =
        some (.num (APPROVAL_TIMEOUT_SECONDS + 10)) := by
  intro h
  simp only [hookEntryTimeout, settings_json, APPROVAL_TIMEOUT_SECONDS,
    backend_timeout, Option.some.injEq, Json.num.injEq] at h
  omega

/-- C7 amended: in the settings JSON generated for the Claude pre-tool
approval hook, the polling timeout passed to the hook command is the
approval timeout plus a 5 second buffer, and the hook entry's own process
timeout is that buffered value plus 10, i.e. the approval timeout
plus 15. -/
theorem c7_settings_timeouts (plan : Bool) (backend_port t : Nat) :
    backend_timeout t = t + 5 ∧
    settings_hook_command backend_port t =
      "$CLAUDE_PROJECT_DIR/.claude/hooks/confirm.py --timeout-seconds "
        ++ toString (t + 5)
        ++ " --poll-interval 5 --backend-port " ++ toString backend_port
        ++ " --feedback-marker " ++ squote ++ USER_FEEDBACK_MARKER ++ squote ∧
    hookEntryTimeout (settings_json plan backend_port t) = some (.num (t + 15)) := by
  refine ⟨rfl, rfl, ?_⟩
  simp only [hookEntryTimeout, settings_json, backend_timeout,
    Option.some.injEq, Json.num.injEq]
  omega

/-- C5 counterexample: a Denied status with a provided (whitespace-only)
reason does not map to Abort as the claim states; the code degrades it to a
plain Denied with no feedback. -/
theorem c5_counterexample :
    ¬ review_decision false (.denied (some " ")) =
        claimedReviewDecision false (.denied (some " ")) := by decide

/-- C5 amended: the wire decision is ApprovedForSession whenever
auto-approve is in effect; otherwise Approved maps to Approved, Denied with
a reason that is nonempty after trimming maps to Abort with the trimmed
reason as feedback, Denied with no reason or a whitespace-only reason maps
to Denied, TimedOut maps to Denied, and Pending maps to Denied. -/
theorem c5_review_decision (auto_approve : Bool) (status : ApprovalStatus) :
    review_decision auto_approve status =
      amendedReviewDecision auto_approve status := by
  cases auto_approve with
  | true => rfl
  | false =>
    cases status with
    | pending => rfl
    | approved => rfl
    | timedOut => rfl
    | denied reason =>
      cases reason with
      | none => rfl
      | some r =>
        unfold review_decision amendedReviewDecision
        by_cases h : (trimStr r).isEmpty <;> simp [h]

/-- C2 counterexample: flushing the pending-feedback queue while no
conversation id is registered does not leave the queued message in the
queue; the queue is drained. -/
theorem c2_counterexample :
    ¬ (flush_pending_feedback ⟨none, ["too dangerous"]⟩).1.pending_feedback =
        ["too dangerous"] := by decide

/-- C2 amended: if the pending-feedback queue is flushed while no
conversation id has been registered, the queue is drained and the drained
messages are discarded with a warning (they are not retained for a later
flush); a flush of an empty queue is a no-op. -/
theorem c2_flush_without_conversation (st : FeedbackState)
    (h : st.conversation_id = none) :
    (flush_pending_feedback st).1 = { st with pending_feedback := [] } ∧
    (flush_pending_feedback st).2 =
      (if st.pending_feedback.isEmpty then .noOp
       else .droppedNoConversation st.pending_feedback.length) := by
  unfold flush_pending_feedback
  by_cases he : st.pending_feedback.isEmpty <;> simp [he, h]

/-- C2 witness: a concrete flush with one queued message and no
conversation id empties the queue and reports one dropped message. -/
theorem c2_flush_without_conversation_witness :
    (flush_pending_feedback ⟨none, ["too dangerous"]⟩).1.pending_feedback = [] ∧
    (flush_pending_feedback ⟨none, ["too dangerous"]⟩).2 =
      .droppedNoConversation 1 := by
  have h := c2_flush_without_conversation ⟨none, ["too dangerous"]⟩ rfl
  exact ⟨by rw [h.1], by rw [h.2]; rfl⟩

/-! ## Theorems: C9, C4, C10 -/

/-- The approval-record-to-entry mapping as the claim words it. -/
def claimedApprovalEntry (a : Approval) : Option NormalizedEntry :=
  match a.approval_status with
  | .denied (some r) =>
    some { entry_type := .userFeedback a.display_tool_name,
           content := trimStr r }
  | .denied none =>
    some { entry_type := .userFeedback a.display_tool_name,
           content := "User denied this tool use request" }
  | .timedOut =>
    some { entry_type := .errorMessage,
           content := "Approval timed out for tool " ++ a.display_tool_name }
  | .approved => none
  | .pending => none

/-- C9: every handled server approval request writes exactly one
ApprovalResponse record (with the request's call id) into the log stream;
the normalizer maps an ApprovalResponse record to at most one entry:
Denied yields one UserFeedback entry whose denied_tool is the display tool
name and whose content is the trimmed reason (or "User denied this tool
use request" when no reason was given), TimedOut yields one ErrorMessage
entry "Approval timed out for tool {name}", and Approved / Pending yield
no entry. -/
theorem c9_approval_roundtrip (auto_approve : Bool) (kind : ApprovalKind)
    (call_id : String) (service_result : Except String ApprovalStatus)
    (st : LogState) (a : Approval) :
    ((handle_server_request auto_approve kind call_id
        service_result).log_records.map Approval.call_id) = [call_id] ∧
    a.to_normalized_entry_opt = claimedApprovalEntry a ∧
    (processCodexLine st (.approvalLine a)).2 =
      (match claimedApprovalEntry a with
       | some e => [Output.patch (.add st.nextIndex e)]
       | none => []) := by
  have h2 : a.to_normalized_entry_opt = claimedApprovalEntry a := by
    unfold Approval.to_normalized_entry_opt claimedApprovalEntry
    cases a.approval_status with
    | denied reason => cases reason <;> rfl
    | pending => rfl
    | approved => rfl
    | timedOut => rfl
  refine ⟨rfl, h2, ?_⟩
  cases h3 : claimedApprovalEntry a with
  | none => simp [processCodexLine, h2, h3]
  | some e => simp [processCodexLine, h2, h3, addEntry]

/-- C4: an ExecCommandEnd event whose call_id matches a tracked command
Replaces the command's entry with exit_status.exit_code equal to the
event's exit_code, output equal to the event's formatted_output, and
status Success exactly when exit_code is 0 (Failed otherwise), and removes
the command's state from the per-call map. -/
theorem c4_exec_command_end (st : LogState) (call_id : String)
    (exit_code : Int) (formatted_output : String) (cs : CommandState) (n : Nat)
    (hcs : lookupA call_id st.commands = some cs) (hidx : cs.index = some n) :
    processEvent st (.execCommandEnd call_id exit_code formatted_output) =
      ({ st with commands := eraseA call_id st.commands },
       [.patch (.replace n
         { entry_type := .toolUse "bash"
             (.commandRun cs.command
               (some { exit_status := some (.exitCode exit_code),
                       output := some formatted_output }))
             (if exit_code = 0 then .success else .failed),
           content := "`" ++ cs.command ++ "`" })]) ∧
    lookupA call_id (eraseA call_id st.commands) = none := by
  refine ⟨?_, lookupA_eraseA_self call_id st.commands⟩
  simp [processEvent, hcs, hidx, CommandState.to_normalized_entry]

/-- C4 witness: scenario S6 of the spec — a tracked command `false` at
entry index 2 that streamed "oops\n" on stderr ends with exit code 1 and
formatted output "oops": the entry is Replaced with status Failed, exit
code 1 and output "oops", and the call is dropped from the map. -/
theorem c4_exec_command_end_witness :
    processEvent
        { nextIndex := 3, assistant := none, thinking := none,
          commands := [("c2",
            { index := some 2, command := "false", stdout := "",
              stderr := "oops\n", formatted_output := none,
              status := .created, exit_code := none,
              awaiting_approval := false, call_id := "c2" })] }
        (.execCommandEnd "c2" 1 "oops") =
      ({ nextIndex := 3, assistant := none, thinking := none, commands := [] },
       [.patch (.replace 2
         { entry_type := .toolUse "bash"
             (.commandRun "false"
               (some { exit_status := some (.exitCode 1),
                       output := some "oops" }))
             (if (1 : Int) = 0 then .success else .failed),
           content := "`" ++ "false" ++ "`" })]) ∧
    lookupA "c2" (eraseA "c2"
      [("c2",
        ({ index := some 2, command := "false", stdout := "",
           stderr := "oops\n", formatted_output := none,
           status := .created, exit_code := none,
           awaiting_approval := false, call_id := "c2" } : CommandState))]) =
      none := by
  have h := c4_exec_command_end
    { nextIndex := 3, assistant := none, thinking := none,
      commands := [("c2",
        { index := some 2, command := "false", stdout := "",
          stderr := "oops\n", formatted_output := none,
          status := .created, exit_code := none,
          awaiting_approval := false, call_id := "c2" })] }
    "c2" 1 "oops"
    { index := some 2, command := "false", stdout := "",
      stderr := "oops\n", formatted_output := none,
      status := .created, exit_code := none,
      awaiting_approval := false, call_id := "c2" }
    2 (by decide) rfl
  exact ⟨by rw [h.1]; rfl, h.2⟩

/-- C10: an ExecCommandBegin whose command vector joins to the empty
string adds no entry and records no command state (beyond the usual
clearing of the streaming assistant/thinking buffers), so a later
ExecCommandOutputDelta or ExecCommandEnd for the same (previously
untracked) call_id produces no patch and leaves the state unchanged. -/
theorem c10_empty_command_dropped (st : LogState) (call_id : String)
    (command : List String) (stream : ExecOutputStream) (chunk : String)
    (exit_code : Int) (formatted_output : String)
    (hfresh : lookupA call_id st.commands = none)
    (hempty : (String.intercalate " " command).isEmpty = true) :
    processEvent st (.execCommandBegin call_id command) =
      ({ st with assistant := none, thinking := none }, []) ∧
    processEvent { st with assistant := none, thinking := none }
        (.execCommandOutputDelta call_id stream chunk) =
      ({ st with assistant := none, thinking := none }, []) ∧
    processEvent { st with assistant := none, thinking := none }
        (.execCommandEnd call_id exit_code formatted_output) =
      ({ st with assistant := none, thinking := none }, []) := by
  refine ⟨?_, ?_, ?_⟩
  · simp [processEvent, hempty]
  · simp [processEvent, hfresh]
  · simp [processEvent, hfresh]

/-- C10 witness: a Begin with the empty command vector followed by an
output delta and an end for the same call id — none of the three events
changes the state or emits a patch. -/
theorem c10_empty_command_dropped_witness :
    processEvent (initialLogState 0) (.execCommandBegin "c9" []) =
      ({ initialLogState 0 with assistant := none, thinking := none }, []) ∧
    processEvent { initialLogState 0 with assistant := none, thinking := none }
        (.execCommandOutputDelta "c9" .stderr "late\n") =
      ({ initialLogState 0 with assistant := none, thinking := none }, []) ∧
    processEvent { initialLogState 0 with assistant := none, thinking := none }
        (.execCommandEnd "c9" 0 "late") =
      ({ initialLogState 0 with assistant := none, thinking := none }, []) :=
  c10_empty_command_dropped (initialLogState 0) "c9" [] .stderr "late\n" 0
    "late" rfl rfl

/-! ## Claude session extraction (claude.rs process_logs) -/

/-- A parsed Claude stdout record, reduced to the fields the session
claims need (the content payloads of System/Assistant/User/... records do
not participate in session extraction). -/
inductive ClaudeSessionRecord where
  | system (session_id : Option String)
  | assistant (session_id : Option String)
  | user (session_id : Option String)
  | toolUse (session_id : Option String)
  | toolResult (session_id : Option String)
  | streamEvent (session_id : Option String)
  | result (session_id : Option String)
  | unknown
deriving Repr, DecidableEq

/-- ClaudeLogProcessor::extract_session_id: every tagged variant carries an
optional session id; the catch-all Unknown never does. -/
def extract_session_id : ClaudeSessionRecord → Option String
  | .system session_id => session_id
  | .assistant session_id => session_id
  | .user session_id => session_id
  | .toolUse session_id => session_id
  | .toolResult session_id => session_id
  | .streamEvent session_id => session_id
  | .result session_id => session_id
  | .unknown => none

/-- The session-id portion of the ClaudeLogProcessor::process_logs line
loop: a session id is pushed only while the `session_id_extracted` flag is
unset, and pushing sets the flag (push_session_id is called nowhere else
in the function). -/
def claudeSessionLoop (session_id_extracted : Bool) :
    List ClaudeSessionRecord → List String
  | [] => []
  | r :: rest =>
    if session_id_extracted then claudeSessionLoop true rest
    else
      match extract_session_id r with
      | some session_id => session_id :: claudeSessionLoop true rest
      | none => claudeSessionLoop false rest

/-- The session ids pushed over one whole Claude run. -/
def claudeSessionPushes (records : List ClaudeSessionRecord) : List String :=
  claudeSessionLoop false records

theorem claudeSessionLoop_extracted (records : List ClaudeSessionRecord) :
    claudeSessionLoop true records = [] := by
  induction records with
  | nil => rfl
  | cons r rest ih => simpa [claudeSessionLoop] using ih

/-! ## C1: session-id uniqueness -/

/-- The session ids a classified codex line carries, one per source: the
SessionConfigured server notification, the codex/event SessionConfigured
event, the newConversation JSON-RPC response and the truncated-line regex
fallback. -/
def codexLineSessionIds : CodexLine → List String
  | .serverNotification (.sessionConfigured session_id _ _) => [session_id]
  | .truncatedSessionConfigured session_id => [session_id]
  | .rpcResponse (some info) =>
    match info.rollout_session with
    | .ok session_id => [session_id]
    | .error _ => []
  | .notification method (some (.sessionConfigured session_id _ _)) =>
    if startsWithStr method "codex/event" then [session_id] else []
  | _ => []

theorem sessionPushes_append (a b : List Output) :
    sessionPushes (a ++ b) = sessionPushes a ++ sessionPushes b := by
  simp [sessionPushes]

theorem sessionPushes_processEvent (st : LogState) (ev : EventMsg) :
    sessionPushes (processEvent st ev).2 =
      (match ev with
       | .sessionConfigured session_id _ _ => [session_id]
       | _ => []) := by
  cases ev with
  | sessionConfigured sid model eff =>
    simp [processEvent, handle_model_params, addEntry, sessionPushes]
  | execApprovalRequest c cmd r =>
    simp only [processEvent]
    split <;> simp [sessionPushes]
  | execCommandBegin c cmd =>
    simp only [processEvent]
    split <;> simp [sessionPushes]
  | execCommandOutputDelta c s ch =>
    simp only [processEvent]
    split
    · simp [sessionPushes]
    · split
      · simp [sessionPushes]
      · split <;> simp [sessionPushes]
  | execCommandEnd c ec fo =>
    simp only [processEvent]
    split
    · simp [sessionPushes]
    · split <;> simp [sessionPushes]
  | unhandled => simp [processEvent, sessionPushes]

theorem sessionPushes_processCodexLine (st : LogState) (line : CodexLine) :
    sessionPushes (processCodexLine st line).2 = codexLineSessionIds line := by
  cases line with
  | errorLine e =>
    simp [processCodexLine, addEntry, sessionPushes, codexLineSessionIds]
  | approvalLine a =>
    cases h : a.to_normalized_entry_opt <;>
      simp [processCodexLine, h, addEntry, sessionPushes, codexLineSessionIds]
  | rpcResponse info =>
    cases info with
    | none => simp [processCodexLine, sessionPushes, codexLineSessionIds]
    | some i =>
      cases h : i.rollout_session <;>
        simp [processCodexLine, h, handle_model_params, addEntry,
          sessionPushes, codexLineSessionIds]
  | serverNotification n =>
    cases n <;>
      simp [processCodexLine, handle_model_params, addEntry, sessionPushes,
        codexLineSessionIds]
  | truncatedSessionConfigured sid =>
    simp [processCodexLine, sessionPushes, codexLineSessionIds]
  | notification method params =>
    by_cases hm : startsWithStr method "codex/event"
    · cases params with
      | none => simp [processCodexLine, hm, sessionPushes, codexLineSessionIds]
      | some ev =>
        cases ev <;>
          simp [processCodexLine, hm, sessionPushes_processEvent,
            codexLineSessionIds]
    · cases params with
      | none => simp [processCodexLine, hm, sessionPushes, codexLineSessionIds]
      | some ev =>
        cases ev <;> simp [processCodexLine, hm, sessionPushes, codexLineSessionIds]
  | unparsed => simp [processCodexLine, sessionPushes, codexLineSessionIds]

/-- C1 counterexample: the Codex normalizer does not ignore later session
identifiers — an input stream with two SessionConfigured server
notifications calls push_session_id twice, so a session id is not pushed
at most once per run. -/
theorem c1_counterexample :
    ¬ (sessionPushes (processCodexLines (initialLogState 0)
        [.serverNotification (.sessionConfigured "sess-a" "gpt-5" none),
         .serverNotification (.sessionConfigured "sess-b" "gpt-5" none)]).2).length ≤ 1 := by
  decide

/-- C1 amended: the Claude normalizer pushes a session id at most once per
run — the first record bearing one wins and all later session identifiers
are ignored; the Codex normalizer, by contrast, pushes a session id for
every record bearing one (each of its four session sources pushes
unconditionally, with no first-wins flag). -/
theorem c1_session_pushes :
    (∀ records : List ClaudeSessionRecord,
      claudeSessionPushes records =
        (records.filterMap extract_session_id).take 1) ∧
    (∀ (st : LogState) (lines : List CodexLine),
      sessionPushes (processCodexLines st lines).2 =
        (lines.map codexLineSessionIds).flatten) := by
  constructor
  · intro records
    induction records with
    | nil => rfl
    | cons r rest ih =>
      cases h : extract_session_id r with
      | none => simpa [claudeSessionPushes, claudeSessionLoop, h] using ih
      | some sid =>
        simp [claudeSessionPushes, claudeSessionLoop, h,
          claudeSessionLoop_extracted]
  · intro st lines
    induction lines generalizing st with
    | nil => simp [processCodexLines, sessionPushes]
    | cons line rest ih =>
      simp only [processCodexLines]
      rw [sessionPushes_append, sessionPushes_processCodexLine, ih]
      simp

/-! ## Claude streaming blocks (claude.rs StreamingMessageState) -/

/-- Tag of a streaming content block (claude.rs StreamingContentKind). -/
inductive StreamingContentKind where
  | text
  | thinking
deriving Repr, DecidableEq

/-- Per-block streaming state (claude.rs StreamingContentState). -/
structure StreamingContentState where
  kind : StreamingContentKind
  buffer : String
  entry_index : Option Nat
deriving Repr, DecidableEq

/-- A content_block_delta payload (claude.rs ClaudeContentBlockDelta);
`unknown` is the serde catch-all for every other delta type. -/
inductive ClaudeContentBlockDelta where
  | textDelta (text : String)
  | thinkingDelta (thinking : String)
  | unknown
deriving Repr, DecidableEq

/-- The content items a streaming block can denote — the image of
StreamingContentState::to_content_item (Text or Thinking; the tool_use and
tool_result items of the full ClaudeContentItem never arise here, and
from_content_block maps them to None in the source). -/
inductive StreamingContentItem where
  | text (text : String)
  | thinking (thinking : String)
deriving Repr, DecidableEq

/-- StreamingContentState::from_content_block on text/thinking blocks: the
initial buffer is the block's text and no entry index is assigned yet. -/
def StreamingContentState.from_content_block
    (cb : StreamingContentItem) : StreamingContentState :=
  match cb with
  | .text t => { kind := .text, buffer := t, entry_index := none }
  | .thinking t => { kind := .thinking, buffer := t, entry_index := none }

/-- StreamingContentState::from_delta. -/
def StreamingContentState.from_delta :
    ClaudeContentBlockDelta → Option StreamingContentState
  | .textDelta _ => some { kind := .text, buffer := "", entry_index := none }
  | .thinkingDelta _ =>
    some { kind := .thinking, buffer := "", entry_index := none }
  | .unknown => none

/-- StreamingContentState::apply_content_delta: append on a matching kind;
a mismatched delta is logged and dropped. -/
def StreamingContentState.apply_content_delta (s : StreamingContentState)
    (delta : ClaudeContentBlockDelta) : StreamingContentState :=
  match s.kind, delta with
  | .text, .textDelta t => { s with buffer := s.buffer ++ t }
  | .thinking, .thinkingDelta t => { s with buffer := s.buffer ++ t }
  | _, _ => s

/-- StreamingContentState::to_content_item. -/
def StreamingContentState.to_content_item
    (s : StreamingContentState) : StreamingContentItem :=
  match s.kind with
  | .text => .text s.buffer
  | .thinking => .thinking s.buffer

/-- Per-message streaming state (claude.rs StreamingMessageState); the
contents HashMap is keyed by the protocol block index. -/
structure StreamingMessageState where
  role : String
  contents : List (Nat × StreamingContentState)
deriving Repr, DecidableEq

/-- The restriction of
ClaudeLogProcessor::content_item_to_normalized_entry to the items produced
by to_content_item: a text item becomes an AssistantMessage only for the
assistant role, a thinking item becomes a Thinking entry. -/
def content_item_to_normalized_entry (item : StreamingContentItem)
    (role : String) : Option NormalizedEntry :=
  match item with
  | .text t =>
    if role = "assistant" then
      some { entry_type := .assistantMessage, content := t }
    else none
  | .thinking t => some { entry_type := .thinking, content := t }

/-- StreamingMessageState::content_block_start. -/
def StreamingMessageState.content_block_start (st : StreamingMessageState)
    (index : Nat) (cb : StreamingContentItem) : StreamingMessageState :=
  { st with contents :=
      insertA index (StreamingContentState.from_content_block cb) st.contents }

/-- StreamingMessageState::apply_content_block_delta. A vacant block slot
is first filled from the delta (or the whole delta is dropped when
from_delta yields none); the delta is applied to the stored block state;
the first emission allocates a fresh entry index (Add), later emissions
reuse the stored index (Replace). `provider` is the shared entry index
allocator. -/
def StreamingMessageState.apply_content_block_delta
    (st : StreamingMessageState) (index : Nat)
    (delta : ClaudeContentBlockDelta) (provider : Nat) :
    StreamingMessageState × Nat × Option Patch :=
  let state0 :=
    match lookupA index st.contents with
    | some s => some s
    | none => StreamingContentState.from_delta delta
  match state0 with
  | none => (st, provider, none)
  | some s0 =>
    let s1 := s0.apply_content_delta delta
    match content_item_to_normalized_entry s1.to_content_item st.role with
    | none => ({ st with contents := insertA index s1 st.contents },
               provider, none)
    | some entry =>
      match s1.entry_index with
      | some existing =>
        ({ st with contents := insertA index s1 st.contents }, provider,
         some (.replace existing entry))
      | none =>
        ({ st with contents :=
             insertA index { s1 with entry_index := some provider } st.contents },
         provider + 1, some (.add provider entry))

/-- Apply a sequence of content_block_delta events for one block index,
collecting the emitted patches. -/
def apply_content_block_deltas (index : Nat) :
    List ClaudeContentBlockDelta → StreamingMessageState → Nat →
    StreamingMessageState × Nat × List Patch
  | [], st, provider => (st, provider, [])
  | d :: rest, st, provider =>
    let r := st.apply_content_block_delta index d provider
    let r2 := apply_content_block_deltas index rest r.1 r.2.1
    (r2.1, r2.2.1,
     (match r.2.2 with
      | some p => [p]
      | none => []) ++ r2.2.2)

/-- Concatenation of delta texts in arrival order. -/
def concatStrings : List String → String
  | [] => ""
  | s :: rest => s ++ concatStrings rest

/-- The Replace patches expected for the deltas after the first one: each
Replace reuses entry index `entryIdx` and carries the text accumulated so
far. -/
def replace_patch_seq (entryIdx : Nat) (acc : String) :
    List String → List Patch
  | [] => []
  | t :: rest =>
    .replace entryIdx { entry_type := .assistantMessage, content := acc ++ t }
      :: replace_patch_seq entryIdx (acc ++ t) rest

theorem apply_deltas_established (index entryIdx : Nat) (ts : List String) :
    ∀ (contents : List (Nat × StreamingContentState)) (provider : Nat)
      (acc : String),
    lookupA index contents =
        some { kind := .text, buffer := acc, entry_index := some entryIdx } →
    (apply_content_block_deltas index (ts.map .textDelta)
        ⟨"assistant", contents⟩ provider).2.1 = provider ∧
    (apply_content_block_deltas index (ts.map .textDelta)
        ⟨"assistant", contents⟩ provider).2.2 =
      replace_patch_seq entryIdx acc ts ∧
    lookupA index (apply_content_block_deltas index (ts.map .textDelta)
        ⟨"assistant", contents⟩ provider).1.contents =
      some { kind := .text, buffer := acc ++ concatStrings ts,
             entry_index := some entryIdx } := by
  induction ts with
  | nil =>
    intro contents provider acc h
    simpa [apply_content_block_deltas, replace_patch_seq, concatStrings] using h
  | cons t rest ih =>
    intro contents provider acc h
    have hstep :
        StreamingMessageState.apply_content_block_delta
          ⟨"assistant", contents⟩ index (.textDelta t) provider =
        (⟨"assistant", insertA index
            { kind := .text, buffer := acc ++ t,
              entry_index := some entryIdx } contents⟩, provider,
         some (.replace entryIdx
           { entry_type := .assistantMessage, content := acc ++ t })) := by
      simp [StreamingMessageState.apply_content_block_delta, h,
        StreamingContentState.apply_content_delta,
        StreamingContentState.to_content_item,
        content_item_to_normalized_entry]
    have hlook : lookupA index
        (insertA index { kind := .text, buffer := acc ++ t,
                         entry_index := some entryIdx } contents) =
        some { kind := StreamingContentKind.text, buffer := acc ++ t,
               entry_index := some entryIdx } :=
      lookupA_insertA_self index _ contents
    have ihr := ih
      (insertA index
        ({ kind := .text, buffer := acc ++ t,
           entry_index := some entryIdx } : StreamingContentState) contents)
      provider (acc ++ t) hlook
    refine ⟨?_, ?_, ?_⟩
    · simpa [apply_content_block_deltas, hstep] using ihr.1
    · simpa [apply_content_block_deltas, hstep, replace_patch_seq]
        using ihr.2.1
    · have := ihr.2.2
      simpa [apply_content_block_deltas, hstep, concatStrings,
        String.append_assoc] using this

/-- C3: all content_block_delta events carrying the same block index
produce exactly one canonical entry — starting from a block slot that is
vacant (or was announced by a content_block_start with empty text), the
first text delta emits an Add at the freshly allocated index, every
subsequent delta emits a Replace reusing that index, the provider
allocates exactly one index, and the block's final content is the
concatenation of the delta texts in arrival order. -/
theorem c3_streaming_deltas (contents : List (Nat × StreamingContentState))
    (provider index : Nat) (t : String) (ts : List String)
    (h0 : lookupA index contents = none ∨
          lookupA index contents =
            some { kind := .text, buffer := "", entry_index := none }) :
    (apply_content_block_deltas index ((t :: ts).map .textDelta)
        ⟨"assistant", contents⟩ provider).2.1 = provider + 1 ∧
    (apply_content_block_deltas index ((t :: ts).map .textDelta)
        ⟨"assistant", contents⟩ provider).2.2 =
      .add provider { entry_type := .assistantMessage, content := t }
        :: replace_patch_seq provider t ts ∧
    lookupA index (apply_content_block_deltas index ((t :: ts).map .textDelta)
        ⟨"assistant", contents⟩ provider).1.contents =
      some { kind := .text, buffer := concatStrings (t :: ts),
             entry_index := some provider } := by
  have hstep :
      StreamingMessageState.apply_content_block_delta
        ⟨"assistant", contents⟩ index (.textDelta t) provider =
      (⟨"assistant", insertA index
          { kind := .text, buffer := t, entry_index := some provider }
          contents⟩, provider + 1,
       some (.add provider
         { entry_type := .assistantMessage, content := t })) := by
    cases h0 with
    | inl h =>
      simp [StreamingMessageState.apply_content_block_delta, h,
        StreamingContentState.from_delta,
        StreamingContentState.apply_content_delta,
        StreamingContentState.to_content_item,
        content_item_to_normalized_entry]
    | inr h =>
      simp [StreamingMessageState.apply_content_block_delta, h,
        StreamingContentState.apply_content_delta,
        StreamingContentState.to_content_item,
        content_item_to_normalized_entry]
  have hlook : lookupA index
      (insertA index { kind := .text, buffer := t,
                       entry_index := some provider } contents) =
      some { kind := StreamingContentKind.text, buffer := t,
             entry_index := some provider } :=
    lookupA_insertA_self index _ contents
  have ihr := apply_deltas_established index provider ts
    (insertA index
      ({ kind := .text, buffer := t,
         entry_index := some provider } : StreamingContentState) contents)
    (provider + 1) t hlook
  refine ⟨?_, ?_, ?_⟩
  · simpa [apply_content_block_deltas, hstep] using ihr.1
  · simpa [apply_content_block_deltas, hstep] using ihr.2.1
  · simpa [apply_content_block_deltas, hstep, concatStrings] using ihr.2.2

/-- C3 witness: scenario S5 of the spec — deltas "He", "ll", "o" on block
index 0 of a fresh assistant streaming message produce one Add at index 0
followed by two Replaces at index 0, one allocated index, and the final
content "Hello". -/
theorem c3_streaming_deltas_witness :
    (apply_content_block_deltas 0 ((["He", "ll", "o"]).map .textDelta)
        ⟨"assistant", []⟩ 0).2.1 = 0 + 1 ∧
    (apply_content_block_deltas 0 ((["He", "ll", "o"]).map .textDelta)
        ⟨"assistant", []⟩ 0).2.2 =
      .add 0 { entry_type := .assistantMessage, content := "He" }
        :: replace_patch_seq 0 "He" ["ll", "o"] ∧
    lookupA 0 (apply_content_block_deltas 0 ((["He", "ll", "o"]).map .textDelta)
        ⟨"assistant", []⟩ 0).1.contents =
      some { kind := .text, buffer := concatStrings ["He", "ll", "o"],
             entry_index := some 0 } :=
  c3_streaming_deltas [] 0 0 "He" ["ll", "o"] (Or.inl rfl)

/-! ## Copilot driver and normalizer (copilot.rs) -/

/-- Copilot::SESSION_PREFIX, the injected session marker. -/
def copilotSessionMarker : String := "[copilot-session] "

/-- Copilot::send_session_id: the background watcher resolves to the uuid
stem of the discovered <uuid>.log file (Ok) or fails (Err, logged); on
success exactly one marker line is appended to the combined stdout. -/
def send_session_id_lines (watch_result : Except String String) : List String :=
  match watch_result with
  | .ok session_id => [copilotSessionMarker ++ session_id ++ "\n"]
  | .error _ => []

/-- What one iteration of Copilot::normalize_logs does with a complete
stdout line (delivered by stdout_lines_stream without its newline):
either a session push, or a hand-off to the plain-text processor. -/
structure CopilotLineResult where
  pushed_session : Option String
  processor_input : Option String
deriving Repr, DecidableEq

/-- The line dispatch of Copilot::normalize_logs: a line starting with the
session marker pushes the trimmed remainder as the session id and is
consumed; any other line is handed (with its newline restored) to the
plain-text processor, which lives outside this crate and is kept opaque
here. -/
def copilot_process_line (line : String) : CopilotLineResult :=
  if startsWithStr line copilotSessionMarker then
    { pushed_session :=
        some (trimStr (line.drop copilotSessionMarker.length)),
      processor_input := none }
  else
    { pushed_session := none, processor_input := some (line ++ "\n") }

/-- C8: the driver writes at most one line to the combined stdout, and on
discovery exactly the one line marker-plus-uuid-plus-newline; the
normalizer recognizes any line starting with the marker, pushes the
trimmed remainder as the session id, and never forwards the marker line to
the entry-producing processor. -/
theorem c8_copilot_session_marker (watch_result : Except String String)
    (uuid line : String)
    (hline : startsWithStr line copilotSessionMarker = true) :
    (send_session_id_lines watch_result).length ≤ 1 ∧
    send_session_id_lines (.ok uuid) =
      [copilotSessionMarker ++ uuid ++ "\n"] ∧
    copilot_process_line line =
      { pushed_session :=
          some (trimStr (line.drop copilotSessionMarker.length)),
        processor_input := none } := by
  refine ⟨?_, rfl, ?_⟩
  · cases watch_result <;> simp [send_session_id_lines]
  · simp [copilot_process_line, hline]

/-- C8 witness: a concrete uuid round-trip — the driver emits exactly the
marker line, and the normalizer consumes that line (newline already split
off) into a session push of the bare uuid with nothing forwarded to the
processor. -/
theorem c8_copilot_session_marker_witness :
    (send_session_id_lines (.error "no log file")).length ≤ 1 ∧
    send_session_id_lines (.ok "1f2e3d4c") =
      ["[copilot-session] 1f2e3d4c\n"] ∧
    copilot_process_line "[copilot-session] 1f2e3d4c" =
      { pushed_session := some "1f2e3d4c", processor_input := none } := by
  have h := c8_copilot_session_marker (.error "no log file") "1f2e3d4c"
    "[copilot-session] 1f2e3d4c" (by decide)
  refine ⟨h.1, by rw [h.2.1]; decide, by rw [h.2.2]; decide⟩

end VibeKanban
